import Mathlib

/-!
Verification of the magserv-js dictionary server (`src/http_server.js`).

The server's `#dataHandler` receives one data chunk, tokenizes it with the
regular expression `/[^\s]+/g` (maximal runs of non-whitespace characters),
dispatches on the first token (`GET`, `SET`, `CLEAR`, `ALL`), writes one
response line, and then writes a separator line `---------------` — except
that the zero-token case writes its error line and returns early, before
the separator write.

We embed this logic shallowly: the dictionary `Map` becomes an association
list with JavaScript `Map` semantics (`set` overwrites in place, `keys` in
insertion order), the tokenizer becomes `tokenize`, and `#dataHandler`
becomes `processTokens` / `processLine`, returning the list of lines
written and the updated store.
-/

/-- Characters matched by JavaScript's `\s` character class (used by the
`/[^\s]+/g` tokenizer in `#dataHandler`). -/
def jsWhitespace (c : Char) : Bool :=
  c = ' ' || c = '\t' || c = '\n' || c = '\r' || c = '\x0b' || c = '\x0c' ||
  c = ' ' || c = ' ' || c = ' ' || c = ' ' || c = ' ' ||
  c = ' ' || c = ' ' || c = ' ' || c = ' ' || c = ' ' ||
  c = ' ' || c = ' ' || c = ' ' || c = ' ' || c = ' ' ||
  c = ' ' || c = ' ' || c = '　' || c = '﻿'

/-- Accumulator-style scanner behind `tokenize`: `cur` holds the reversed
characters of the token currently being read. -/
def tokensAux : List Char → List Char → List String
  | [], cur => if cur = [] then [] else [String.mk cur.reverse]
  | c :: rest, cur =>
    if jsWhitespace c then
      if cur = [] then tokensAux rest []
      else String.mk cur.reverse :: tokensAux rest []
    else
      tokensAux rest (c :: cur)

/-- `data.toString('utf-8').match(/[^\s]+/g)`: the maximal runs of
non-whitespace characters of the input, in order; `[]` plays the role of
the `null` match result. -/
def tokenize (s : String) : List String :=
  tokensAux s.data []

/-- JavaScript `Array.prototype.join(sep)`. -/
def joinSep (sep : String) : List String → String
  | [] => ""
  | [x] => x
  | x :: y :: rest => x ++ sep ++ joinSep sep (y :: rest)

/-- The dictionary `Map` (`#responses`), as an insertion-ordered
association list. -/
abbrev Store := List (String × String)

/-- `Map.prototype.get` (`#cmdGet`): value of the first (only) entry with
the given key. -/
def storeGet : Store → String → Option String
  | [], _ => none
  | (k, v) :: rest, w => if k = w then some v else storeGet rest w

/-- `Map.prototype.set` (`#cmdSet`): overwrite in place if the key exists,
otherwise append at the end (JavaScript `Map` keeps insertion order). -/
def storeSet : Store → String → String → Store
  | [], w, d => [(w, d)]
  | (k, v) :: rest, w, d =>
    if k = w then (k, d) :: rest else (k, v) :: storeSet rest w d

/-- `Map.prototype.keys` as used by `#cmdAll`: the keys in insertion
order. -/
def storeKeys (st : Store) : List String :=
  st.map Prod.fst

/-- `#cmdAll`: the keys joined by `', '`. -/
def cmdAll (st : Store) : String :=
  joinSep ", " (storeKeys st)

/-- The separator line written after the `switch` in `#dataHandler`. -/
def sepLine : String := "---------------"

/-- The `switch` of `#dataHandler`, acting on the (non-null handled
separately) token list: returns the lines written and the store after the
command.  JavaScript truthiness tests (`!stringMatch[1]`, `!extraParam`,
`if (rVal)`, `if (words)`) are modelled as emptiness tests, `undefined`
indexing as pattern matching. -/
def processTokens (st : Store) : List String → List String × Store
  | [] => (["ERROR A command was expected."], st)
  | verb :: args =>
    if verb = "GET" then
      match args with
      | [] => (["ERROR Expected format is: GET <word>.", sepLine], st)
      | w :: _ =>
        if w = "" then (["ERROR Expected format is: GET <word>.", sepLine], st)
        else
          match storeGet st w with
          | some v =>
            if v = "" then (["ERROR Could not find the specified word.", sepLine], st)
            else (["ANSWER " ++ v, sepLine], st)
          | none => (["ERROR Could not find the specified word.", sepLine], st)
    else if verb = "SET" then
      match args with
      | [] => (["ERROR Expected format is: SET <word> <desc>", sepLine], st)
      | w :: rest =>
        if w = "" ∨ joinSep " " rest = "" then
          (["ERROR Expected format is: SET <word> <desc>", sepLine], st)
        else
          (["ANSWER Word " ++ w ++ " has been set.", sepLine],
            storeSet st w (joinSep " " rest))
    else if verb = "CLEAR" then
      (["ANSWER The dictionary has been cleared.", sepLine], [])
    else if verb = "ALL" then
      if cmdAll st = "" then (["ERROR There are no words saved.", sepLine], st)
      else (["ANSWER Available words: " ++ cmdAll st ++ ".", sepLine], st)
    else
      (["ERROR Command not found.", sepLine], st)

/-- `#dataHandler` on one data chunk: tokenize, then dispatch. -/
def processLine (st : Store) (input : String) : List String × Store :=
  processTokens st (tokenize input)

/-- Processing a sequence of data chunks, tracking only the store. -/
def runLines (st : Store) (lines : List String) : Store :=
  lines.foldl (fun s l => (processLine s l).2) st

/-- A response line proper: prefixed `ANSWER ` or `ERROR `. -/
def isResponseLine (r : String) : Prop :=
  (∃ t, r = "ANSWER " ++ t) ∨ (∃ t, r = "ERROR " ++ t)

/-- The Dictionary Store invariant: no entry has an empty key, a key
containing whitespace, or an empty description. -/
def storeWF (st : Store) : Prop :=
  ∀ p ∈ st, p.1 ≠ "" ∧ (∀ c ∈ p.1.data, jsWhitespace c = false) ∧ p.2 ≠ ""

instance storeWF_decidable (st : Store) : Decidable (storeWF st) :=
  inferInstanceAs
    (Decidable (∀ p ∈ st, p.1 ≠ "" ∧ (∀ c ∈ p.1.data, jsWhitespace c = false) ∧ p.2 ≠ ""))

/-! ### Generic lemmas about the tokenizer and the store -/

theorem stringMk_data (s : String) : String.mk s.data = s := rfl

theorem data_ne_nil (w : String) (hw : w ≠ "") : w.data ≠ [] := by
  intro h
  exact hw (String.ext (by rw [h]))

theorem tokensAux_nil (cur : List Char) :
    tokensAux [] cur = if cur = [] then [] else [String.mk cur.reverse] := rfl

theorem tokensAux_nonws (xs : List Char) (hxs : ∀ c ∈ xs, jsWhitespace c = false)
    (ys cur : List Char) :
    tokensAux (xs ++ ys) cur = tokensAux ys (xs.reverse ++ cur) := by
  induction xs generalizing cur with
  | nil => simp
  | cons x xs ih =>
    have hx : jsWhitespace x = false := hxs x (by simp)
    have hxs₂ : ∀ c ∈ xs, jsWhitespace c = false := fun c hc => hxs c (by simp [hc])
    simp [tokensAux, hx, ih hxs₂]

theorem tokensAux_ws_cons (c : Char) (hc : jsWhitespace c = true) (ys cur : List Char) :
    tokensAux (c :: ys) cur =
      (if cur = [] then [] else [String.mk cur.reverse]) ++ tokensAux ys [] := by
  by_cases h : cur = [] <;> simp [tokensAux, hc, h]

theorem tokenize_all_nonws (w : String) (hw : w ≠ "")
    (hws : ∀ c ∈ w.data, jsWhitespace c = false) :
    tokenize w = [w] := by
  unfold tokenize
  have h₁ : w.data = w.data ++ [] := by simp
  rw [h₁, tokensAux_nonws w.data hws [] [], tokensAux_nil]
  simp [data_ne_nil w hw, stringMk_data]

theorem tokenize_word_cons (w rest : String) (hw : w ≠ "")
    (hws : ∀ c ∈ w.data, jsWhitespace c = false) :
    tokenize (w ++ " " ++ rest) = w :: tokenize rest := by
  unfold tokenize
  have hdata : (w ++ " " ++ rest).data = w.data ++ (' ' :: rest.data) := by
    simp [String.data_append]
  rw [hdata, tokensAux_nonws w.data hws (' ' :: rest.data) [],
      tokensAux_ws_cons ' ' (by decide)]
  simp [data_ne_nil w hw, stringMk_data]

theorem tokenize_SET_line (w d : String) (hw : w ≠ "")
    (hws : ∀ c ∈ w.data, jsWhitespace c = false) :
    tokenize ("SET " ++ w ++ " " ++ d) = "SET" :: w :: tokenize d := by
  have h₁ : "SET " ++ w ++ " " ++ d = "SET" ++ " " ++ (w ++ " " ++ d) := by
    apply String.ext
    simp [String.data_append]
  rw [h₁, tokenize_word_cons "SET" (w ++ " " ++ d) (by decide) (by decide),
      tokenize_word_cons w d hw hws]

theorem tokenize_GET_line (w : String) (hw : w ≠ "")
    (hws : ∀ c ∈ w.data, jsWhitespace c = false) :
    tokenize ("GET " ++ w) = ["GET", w] := by
  have h₁ : "GET " ++ w = "GET" ++ " " ++ w := by
    apply String.ext
    simp [String.data_append]
  rw [h₁, tokenize_word_cons "GET" w (by decide) (by decide),
      tokenize_all_nonws w hw hws]

theorem storeGet_storeSet_self (st : Store) (w d : String) :
    storeGet (storeSet st w d) w = some d := by
  induction st with
  | nil => simp [storeSet, storeGet]
  | cons p rest ih =>
    obtain ⟨k, v⟩ := p
    by_cases h : k = w <;> simp [storeSet, storeGet, h, ih]

example : tokenize "SET foo   has   lots of   spaces" =
    ["SET", "foo", "has", "lots", "of", "spaces"] := by decide
example : tokenize "  \r\n" = [] := by decide
example : processLine [] "SET x a  b" =
    (["ANSWER Word x has been set.", "---------------"], [("x", "a b")]) := by decide
example : processLine [("x", "a b")] "GET x" =
    (["ANSWER a b", "---------------"], [("x", "a b")]) := by decide
example : processLine [] "" = (["ERROR A command was expected."], []) := by decide
example : processLine [("a", "b"), ("c", "d")] "ALL" =
    (["ANSWER Available words: a, c.", "---------------"], [("a", "b"), ("c", "d")]) := by
  decide
example : processLine [] "ALL" = (["ERROR There are no words saved.", "---------------"], []) := by
  decide
example : processLine [("a", "b")] "CLEAR" =
    (["ANSWER The dictionary has been cleared.", "---------------"], []) := by decide
example : processLine [("a", "b")] "ping x" =
    (["ERROR Command not found.", "---------------"], [("a", "b")]) := by decide
example : processLine [] "SET a b\r\nGET a\r\n" =
    (["ANSWER Word a has been set.", "---------------"], [("a", "b GET a")]) := by decide

/-! ### C1 — SET then GET round-trip -/

/-- C1 (amended): for a word `w` (non-empty, containing no whitespace) and
a description `d` that is non-empty and equal to its own single-space
normalization (its tokens rejoined with single spaces), processing
`SET w d` and then `GET w` on the same store yields `ANSWER d` to the GET.
The extra normalization hypothesis on `d` is forced: `#dataHandler`
rejoins the description tokens with single spaces before storing
(see `c1_counterexample`). -/
theorem c1_set_then_get (st : Store) (w d : String)
    (hw : w ≠ "") (hws : ∀ c ∈ w.data, jsWhitespace c = false)
    (hd : d ≠ "") (hnorm : joinSep " " (tokenize d) = d) :
    (processLine (processLine st ("SET " ++ w ++ " " ++ d)).2 ("GET " ++ w)).1
      = ["ANSWER " ++ d, sepLine] := by
  have hset : (processLine st ("SET " ++ w ++ " " ++ d)).2 = storeSet st w d := by
    simp [processLine, tokenize_SET_line w d hw hws, processTokens, hw, hnorm, hd]
  rw [hset]
  simp [processLine, tokenize_GET_line w hw hws, processTokens, hw,
        storeGet_storeSet_self, hd]

/-- C1 counterexample: at `w = "x"`, `d = "a  b"` (both non-empty, `w`
whitespace-free), `SET x a  b` followed by `GET x` answers `ANSWER a b`,
not `ANSWER a  b`: the whitespace run inside the description is collapsed,
so the original claim fails as stated. -/
theorem c1_counterexample :
    (processLine (processLine [] "SET x a  b").2 "GET x").1
      ≠ ["ANSWER " ++ "a  b", sepLine] := by decide

/-- C1 witness: the amended round-trip at `w = "x"`,
`d = "lots of spaces"` on the empty store. -/
theorem c1_witness :
    (processLine (processLine [] ("SET " ++ "x" ++ " " ++ "lots of spaces")).2
        ("GET " ++ "x")).1 = ["ANSWER " ++ "lots of spaces", sepLine] :=
  c1_set_then_get [] "x" "lots of spaces" (by decide) (by decide) (by decide) (by decide)

/-! ### More tokenizer and string lemmas -/

theorem stringAppend_assoc (a b c : String) : a ++ b ++ c = a ++ (b ++ c) := by
  apply String.ext
  simp [String.data_append]

theorem append_eq_empty (a b : String) (h : a ++ b = "") : a = "" ∧ b = "" := by
  have hd : a.data ++ b.data = [] := by
    rw [← String.data_append, h]
  rcases List.append_eq_nil.mp hd with ⟨ha, hb⟩
  exact ⟨String.ext (by rw [ha]), String.ext (by rw [hb])⟩

theorem joinSep_cons_ne_empty (sep k : String) (rest : List String) (hk : k ≠ "") :
    joinSep sep (k :: rest) ≠ "" := by
  cases rest with
  | nil => simpa [joinSep] using hk
  | cons y ys =>
    intro h
    rw [joinSep] at h
    exact hk (append_eq_empty _ _ (append_eq_empty _ _ h).1).1

theorem tokensAux_trailing_ws (c : Char) (hc : jsWhitespace c = true)
    (xs cur : List Char) :
    tokensAux (xs ++ [c]) cur = tokensAux xs cur := by
  induction xs generalizing cur with
  | nil => by_cases h : cur = [] <;> simp [tokensAux, hc, h]
  | cons x xs ih =>
    rcases hx : jsWhitespace x with _ | _
    · simp [tokensAux, hx, ih]
    · by_cases h : cur = [] <;> simp [tokensAux, hx, h, ih]

theorem tokensAux_split_ws (c : Char) (hc : jsWhitespace c = true)
    (ys xs cur : List Char) :
    tokensAux (xs ++ c :: ys) cur = tokensAux (xs ++ [c]) cur ++ tokensAux ys [] := by
  induction xs generalizing cur with
  | nil => by_cases h : cur = [] <;> simp [tokensAux, hc, h]
  | cons x xs ih =>
    rcases hx : jsWhitespace x with _ | _
    · simp [tokensAux, hx, ih]
    · by_cases h : cur = [] <;> simp [tokensAux, hx, h, ih]

theorem tokenize_chunks (a b : String) :
    tokenize (a ++ "\r\n" ++ b ++ "\r\n") = tokenize a ++ tokenize b := by
  unfold tokenize
  have hcrlf : ("\r\n" : String).data = ['\r', '\n'] := rfl
  have hdata : (a ++ "\r\n" ++ b ++ "\r\n").data
      = a.data ++ '\r' :: ('\n' :: (b.data ++ ['\r', '\n'])) := by
    simp [String.data_append, hcrlf]
  rw [hdata, tokensAux_split_ws '\r' (by decide) _ a.data [],
      tokensAux_trailing_ws '\r' (by decide) a.data [],
      tokensAux_ws_cons '\n' (by decide)]
  have hsplit : b.data ++ ['\r', '\n'] = (b.data ++ ['\r']) ++ ['\n'] := by simp
  rw [hsplit, tokensAux_trailing_ws '\n' (by decide),
      tokensAux_trailing_ws '\r' (by decide)]
  simp

theorem mk_reverse_wf (cur : List Char) (hc : cur ≠ [])
    (hcur : ∀ c ∈ cur, jsWhitespace c = false) :
    String.mk cur.reverse ≠ "" ∧
      ∀ c ∈ (String.mk cur.reverse).data, jsWhitespace c = false := by
  constructor
  · intro he
    exact hc (by simpa using congrArg String.data he)
  · intro c hcm
    exact hcur c (by simpa using hcm)

theorem tokensAux_wf (l : List Char) :
    ∀ cur : List Char, (∀ c ∈ cur, jsWhitespace c = false) →
      ∀ t ∈ tokensAux l cur, t ≠ "" ∧ ∀ c ∈ t.data, jsWhitespace c = false := by
  induction l with
  | nil =>
    intro cur hcur t ht
    by_cases h : cur = []
    · simp [tokensAux_nil, h] at ht
    · rw [tokensAux_nil] at ht
      simp [h] at ht
      subst ht
      exact mk_reverse_wf cur h hcur
  | cons x xs ih =>
    intro cur hcur t ht
    rcases hx : jsWhitespace x with _ | _
    · rw [show tokensAux (x :: xs) cur = tokensAux xs (x :: cur) by
        simp [tokensAux, hx]] at ht
      have hcur₂ : ∀ c ∈ x :: cur, jsWhitespace c = false := by
        intro c hmem
        rcases List.mem_cons.mp hmem with h | h
        · subst h; exact hx
        · exact hcur c h
      exact ih (x :: cur) hcur₂ t ht
    · rw [tokensAux_ws_cons x hx] at ht
      rcases List.mem_append.mp ht with h | h
      · by_cases hc : cur = []
        · simp [hc] at h
        · simp [hc] at h
          subst h
          exact mk_reverse_wf cur hc hcur
      · exact ih [] (by simp) t h

theorem tokenize_wf (s : String) :
    ∀ t ∈ tokenize s, t ≠ "" ∧ ∀ c ∈ t.data, jsWhitespace c = false :=
  tokensAux_wf s.data [] (by simp)

/-! ### Case lemmas for the dispatcher -/

theorem processTokens_empty (st : Store) :
    processTokens st [] = (["ERROR A command was expected."], st) := rfl

theorem processTokens_unknown (st : Store) (verb : String) (args : List String)
    (hg : verb ≠ "GET") (hs : verb ≠ "SET") (hc : verb ≠ "CLEAR") (ha : verb ≠ "ALL") :
    processTokens st (verb :: args) = (["ERROR Command not found.", sepLine], st) := by
  simp [processTokens, hg, hs, hc, ha]

theorem processTokens_clear (st : Store) (args : List String) :
    processTokens st ("CLEAR" :: args)
      = (["ANSWER The dictionary has been cleared.", sepLine], []) := by
  simp [processTokens]

theorem processTokens_set (st : Store) (w : String) (rest : List String)
    (hw : w ≠ "") (hr : joinSep " " rest ≠ "") :
    processTokens st ("SET" :: w :: rest)
      = (["ANSWER Word " ++ w ++ " has been set.", sepLine],
          storeSet st w (joinSep " " rest)) := by
  simp [processTokens, hw, hr]

theorem processTokens_get_snd (st : Store) (args : List String) :
    (processTokens st ("GET" :: args)).2 = st := by
  cases args with
  | nil => rfl
  | cons w ws =>
    by_cases hw : w = ""
    · simp [processTokens, hw]
    · rcases hget : storeGet st w with _ | v
      · simp [processTokens, hw, hget]
      · by_cases hv : v = "" <;> simp [processTokens, hw, hget, hv]

theorem processTokens_all_snd (st : Store) (args : List String) :
    (processTokens st ("ALL" :: args)).2 = st := by
  by_cases hc : cmdAll st = "" <;> simp [processTokens, hc]

theorem processTokens_set_snd (st : Store) (args : List String) :
    (processTokens st ("SET" :: args)).2 = st ∨
    ∃ w rest, args = w :: rest ∧ w ≠ "" ∧ joinSep " " rest ≠ "" ∧
      (processTokens st ("SET" :: args)).2 = storeSet st w (joinSep " " rest) := by
  cases args with
  | nil => exact Or.inl rfl
  | cons w rest =>
    by_cases hw : w = ""
    · exact Or.inl (by simp [processTokens, hw])
    · by_cases hr : joinSep " " rest = ""
      · exact Or.inl (by simp [processTokens, hw, hr])
      · exact Or.inr ⟨w, rest, rfl, hw, hr, by rw [processTokens_set st w rest hw hr]⟩

theorem processTokens_snd_shape (st : Store) (toks : List String) :
    (processTokens st toks).2 = st ∨
    (toks.head? = some "CLEAR" ∧ (processTokens st toks).2 = []) ∨
    (∃ w rest, toks = "SET" :: w :: rest ∧ w ≠ "" ∧ joinSep " " rest ≠ "" ∧
      (processTokens st toks).2 = storeSet st w (joinSep " " rest)) := by
  cases toks with
  | nil => exact Or.inl rfl
  | cons verb args =>
    by_cases hg : verb = "GET"
    · exact Or.inl (by rw [hg, processTokens_get_snd])
    · by_cases hs : verb = "SET"
      · subst hs
        rcases processTokens_set_snd st args with h | ⟨w, rest, hargs, hw, hr, hsnd⟩
        · exact Or.inl h
        · exact Or.inr (Or.inr ⟨w, rest, by rw [hargs], hw, hr, hsnd⟩)
      · by_cases hc : verb = "CLEAR"
        · subst hc
          exact Or.inr (Or.inl ⟨rfl, by rw [processTokens_clear]⟩)
        · by_cases ha : verb = "ALL"
          · exact Or.inl (by rw [ha, processTokens_all_snd])
          · exact Or.inl (by rw [processTokens_unknown st verb args hg hs hc ha])

/-! ### Store lemmas -/

theorem storeSet_wf (st : Store) (hwf : storeWF st) (w d : String) (hw : w ≠ "")
    (hws : ∀ c ∈ w.data, jsWhitespace c = false) (hd : d ≠ "") :
    storeWF (storeSet st w d) := by
  induction st with
  | nil =>
    intro p hp
    simp [storeSet] at hp
    subst hp
    exact ⟨hw, hws, hd⟩
  | cons q rest ih =>
    obtain ⟨k, v⟩ := q
    have hq := hwf (k, v) (by simp)
    have hrest : storeWF rest := fun p hp => hwf p (by simp [hp])
    by_cases h : k = w
    · subst h
      intro p hp
      rw [storeSet] at hp
      simp at hp
      rcases hp with hp | hp
      · subst hp; exact ⟨hq.1, hq.2.1, hd⟩
      · exact hrest p hp
    · intro p hp
      rw [storeSet] at hp
      simp [h] at hp
      rcases hp with hp | hp
      · subst hp; exact hq
      · exact ih hrest p hp

theorem storeSet_idem (st : Store) (w d : String) :
    storeSet (storeSet st w d) w d = storeSet st w d := by
  induction st with
  | nil => simp [storeSet]
  | cons q rest ih =>
    obtain ⟨k, v⟩ := q
    by_cases h : k = w <;> simp [storeSet, h, ih]

theorem filter_key_eq_nil (st : Store) (w : String) (h : w ∉ storeKeys st) :
    st.filter (fun p => p.1 == w) = [] := by
  induction st with
  | nil => rfl
  | cons q rest ih =>
    obtain ⟨k, v⟩ := q
    simp [storeKeys] at h
    simp [List.filter_cons, ih (by simp [storeKeys, h.2])]
    intro hkw
    exact absurd hkw.symm h.1

theorem filter_storeSet (st : Store) (w d : String)
    (hnodup : (storeKeys st).Nodup) :
    (storeSet st w d).filter (fun p => p.1 == w) = [(w, d)] := by
  induction st with
  | nil => simp [storeSet]
  | cons q rest ih =>
    obtain ⟨k, v⟩ := q
    have hcons : storeKeys ((k, v) :: rest) = k :: storeKeys rest := rfl
    rw [hcons, List.nodup_cons] at hnodup
    by_cases h : k = w
    · subst h
      rw [storeSet, if_pos rfl]
      simp [List.filter_cons, filter_key_eq_nil rest k hnodup.1]
    · rw [storeSet, if_neg h, List.filter_cons]
      have hps : (((k, v) : String × String).1 == w) = false := by
        simp [h]
      rw [hps]
      simpa using ih hnodup.2

/-! ### Shape of the written response -/

theorem processTokens_cons_shape (st : Store) (verb : String) (args : List String) :
    ∃ r, (processTokens st (verb :: args)).1 = [r, sepLine] ∧ isResponseLine r := by
  by_cases hg : verb = "GET"
  · subst hg
    cases args with
    | nil =>
      exact ⟨"ERROR Expected format is: GET <word>.", by simp [processTokens],
        Or.inr ⟨"Expected format is: GET <word>.", by decide⟩⟩
    | cons w ws =>
      by_cases hw : w = ""
      · exact ⟨"ERROR Expected format is: GET <word>.", by simp [processTokens, hw],
          Or.inr ⟨"Expected format is: GET <word>.", by decide⟩⟩
      · rcases hget : storeGet st w with _ | v
        · exact ⟨"ERROR Could not find the specified word.",
            by simp [processTokens, hw, hget],
            Or.inr ⟨"Could not find the specified word.", by decide⟩⟩
        · by_cases hv : v = ""
          · exact ⟨"ERROR Could not find the specified word.",
              by simp [processTokens, hw, hget, hv],
              Or.inr ⟨"Could not find the specified word.", by decide⟩⟩
          · exact ⟨"ANSWER " ++ v, by simp [processTokens, hw, hget, hv],
              Or.inl ⟨v, rfl⟩⟩
  · by_cases hs : verb = "SET"
    · subst hs
      cases args with
      | nil =>
        exact ⟨"ERROR Expected format is: SET <word> <desc>", by simp [processTokens],
          Or.inr ⟨"Expected format is: SET <word> <desc>", by decide⟩⟩
      | cons w rest =>
        by_cases hw : w = "" ∨ joinSep " " rest = ""
        · exact ⟨"ERROR Expected format is: SET <word> <desc>",
            by simp [processTokens, hw],
            Or.inr ⟨"Expected format is: SET <word> <desc>", by decide⟩⟩
        · refine ⟨"ANSWER Word " ++ w ++ " has been set.",
            by simp [processTokens, hw], Or.inl ⟨"Word " ++ (w ++ " has been set."), ?_⟩⟩
          rw [(by decide : ("ANSWER Word " : String) = "ANSWER " ++ "Word "),
            stringAppend_assoc, stringAppend_assoc]
    · by_cases hc : verb = "CLEAR"
      · subst hc
        exact ⟨"ANSWER The dictionary has been cleared.", by simp [processTokens],
          Or.inl ⟨"The dictionary has been cleared.", by decide⟩⟩
      · by_cases ha : verb = "ALL"
        · subst ha
          by_cases hall : cmdAll st = ""
          · exact ⟨"ERROR There are no words saved.", by simp [processTokens, hall],
              Or.inr ⟨"There are no words saved.", by decide⟩⟩
          · refine ⟨"ANSWER Available words: " ++ cmdAll st ++ ".",
              by simp [processTokens, hall],
              Or.inl ⟨"Available words: " ++ (cmdAll st ++ "."), ?_⟩⟩
            rw [(by decide :
              ("ANSWER Available words: " : String) = "ANSWER " ++ "Available words: "),
              stringAppend_assoc, stringAppend_assoc]
        · exact ⟨"ERROR Command not found.",
            by rw [processTokens_unknown st verb args hg hs hc ha],
            Or.inr ⟨"Command not found.", by decide⟩⟩

/-! ### C2 — response followed by a separator line -/

/-- C2 (amended): every inbound chunk with at least one token yields
exactly one response line prefixed `ANSWER ` or `ERROR `, followed by the
literal separator line `---------------`; a chunk with zero tokens yields
the single line `ERROR A command was expected.` with no separator after
it (`#dataHandler` returns early in that branch, before the separator
write — see `c2_counterexample`). -/
theorem c2_response_shape (st : Store) (input : String) :
    (tokenize input = [] →
      (processLine st input).1 = ["ERROR A command was expected."]) ∧
    (tokenize input ≠ [] →
      ∃ r, (processLine st input).1 = [r, sepLine] ∧ isResponseLine r) := by
  constructor
  · intro h
    simp [processLine, h, processTokens_empty]
  · intro h
    rcases htoks : tokenize input with _ | ⟨verb, args⟩
    · exact absurd htoks h
    · rw [show (processLine st input).1 = (processTokens st (verb :: args)).1 by
        rw [processLine, htoks]]
      exact processTokens_cons_shape st verb args

/-- C2 witness: on a non-empty store, the whitespace-only chunk `"\r\n"`
gets the bare error line, while `ALL` gets a response line followed by the
separator. -/
theorem c2_witness :
    (processLine [("a", "b")] "\r\n").1 = ["ERROR A command was expected."] ∧
    ∃ r, (processLine [("a", "b")] "ALL").1 = [r, sepLine] ∧ isResponseLine r :=
  ⟨(c2_response_shape [("a", "b")] "\r\n").1 (by decide),
   (c2_response_shape [("a", "b")] "ALL").2 (by decide)⟩

/-- C2 counterexample: on the whitespace-only chunk `"\r\n"` the handler
writes the single line `ERROR A command was expected.` and returns before
the separator write, so this error response is not followed by the
separator line. -/
theorem c2_counterexample :
    (processLine [] "\r\n").1 = ["ERROR A command was expected."] ∧
    sepLine ∉ (processLine [] "\r\n").1 := by decide

/-! ### C3 — ALL on empty and non-empty stores -/

/-- C3: `ALL` immediately after a `CLEAR` answers
`ERROR There are no words saved.`; so does `ALL` on an empty store; on a
non-empty store (whose keys are non-empty, as the store invariant
guarantees) `ALL` answers
`ANSWER Available words: <keys joined with comma-space>.`. -/
theorem c3_all_response (st : Store) :
    (processLine (processLine st "CLEAR").2 "ALL").1
        = ["ERROR There are no words saved.", sepLine] ∧
    (st = [] →
      (processLine st "ALL").1 = ["ERROR There are no words saved.", sepLine]) ∧
    (st ≠ [] → (∀ p ∈ st, p.1 ≠ "") →
      (processLine st "ALL").1
        = ["ANSWER Available words: " ++ joinSep ", " (storeKeys st) ++ ".", sepLine]) := by
  have hall : tokenize "ALL" = ["ALL"] := by decide
  have hclear : tokenize "CLEAR" = ["CLEAR"] := by decide
  refine ⟨?_, ?_, ?_⟩
  · rw [show (processLine st "CLEAR").2 = [] by
      rw [processLine, hclear, processTokens_clear]]
    simp [processLine, hall, processTokens, cmdAll, storeKeys, joinSep]
  · intro h
    subst h
    simp [processLine, hall, processTokens, cmdAll, storeKeys, joinSep]
  · intro hne hkeys
    rcases hst : st with _ | ⟨p, rest⟩
    · exact absurd hst hne
    · have hk : p.1 ≠ "" := hkeys p (by rw [hst]; simp)
      have hcmd : cmdAll (p :: rest) ≠ "" := by
        rw [cmdAll, show storeKeys (p :: rest) = p.1 :: storeKeys rest from rfl]
        exact joinSep_cons_ne_empty ", " p.1 (storeKeys rest) hk
      rw [processLine, hall, show processTokens (p :: rest) ["ALL"]
          = (["ANSWER Available words: " ++ cmdAll (p :: rest) ++ ".", sepLine], p :: rest) by
        simp [processTokens, hcmd]]
      rfl

/-- C3 witness: `ALL` on the empty store errors; `ALL` on a two-entry
store lists both keys comma-space-joined. -/
theorem c3_witness :
    (processLine ([] : Store) "ALL").1 = ["ERROR There are no words saved.", sepLine] ∧
    (processLine [("alpha", "b"), ("beta", "c")] "ALL").1
      = ["ANSWER Available words: alpha, beta.", sepLine] := by
  refine ⟨(c3_all_response []).2.1 rfl, ?_⟩
  have h := (c3_all_response [("alpha", "b"), ("beta", "c")]).2.2
    (by decide) (by decide)
  rw [h]
  decide

/-! ### C4 — whitespace normalization of SET descriptions -/

/-- C4: for any SET line whose description part has at least one token
(in particular one with runs of several whitespace characters), the
stored description is the description's tokens rejoined with single
spaces; e.g. `SET foo   has   lots of   spaces` stores
`has lots of spaces` under `foo` (see `c4_witness`). -/
theorem c4_set_normalizes (st : Store) (w d : String) (hw : w ≠ "")
    (hws : ∀ c ∈ w.data, jsWhitespace c = false) (hd : tokenize d ≠ []) :
    storeGet (processLine st ("SET " ++ w ++ " " ++ d)).2 w
      = some (joinSep " " (tokenize d)) := by
  have hjoin : joinSep " " (tokenize d) ≠ "" := by
    rcases htd : tokenize d with _ | ⟨t, ts⟩
    · exact absurd htd hd
    · have ht : t ≠ "" := (tokenize_wf d t (by rw [htd]; simp)).1
      exact joinSep_cons_ne_empty " " t ts ht
  rw [processLine, tokenize_SET_line w d hw hws, processTokens_set st w (tokenize d) hw hjoin]
  exact storeGet_storeSet_self st w (joinSep " " (tokenize d))

/-- C4 witness: `SET foo   has   lots of   spaces` stores the single-space
form `has lots of spaces`, and `GET foo` then answers it. -/
theorem c4_witness :
    storeGet (processLine [] ("SET " ++ "foo" ++ " " ++ "has   lots of   spaces")).2 "foo"
      = some "has lots of spaces" ∧
    (processLine (processLine [] "SET foo   has   lots of   spaces").2 "GET foo").1
      = ["ANSWER has lots of spaces", sepLine] := by
  constructor
  · have h := c4_set_normalizes [] "foo" "has   lots of   spaces"
      (by decide) (by decide) (by decide)
    rw [h]
    decide
  · decide

/-! ### C5 — unknown verbs -/

/-- C5: any non-empty input line whose first token is not exactly `GET`,
`SET`, `CLEAR` or `ALL` (case-sensitively) is answered with
`ERROR Command not found.` and leaves the Dictionary Store unchanged. -/
theorem c5_unknown_verb (st : Store) (input verb : String) (args : List String)
    (h : tokenize input = verb :: args)
    (hg : verb ≠ "GET") (hs : verb ≠ "SET") (hc : verb ≠ "CLEAR") (ha : verb ≠ "ALL") :
    processLine st input = (["ERROR Command not found.", sepLine], st) := by
  rw [processLine, h, processTokens_unknown st verb args hg hs hc ha]

/-- C5 witness: the lowercase line `get x` on a singleton store errors
and leaves the store intact. -/
theorem c5_witness :
    processLine [("x", "y")] "get x" = (["ERROR Command not found.", sepLine], [("x", "y")]) :=
  c5_unknown_verb [("x", "y")] "get x" "get" ["x"]
    (by decide) (by decide) (by decide) (by decide) (by decide)

/-! ### C6 — store well-formedness invariant -/

/-- C6: processing any input line preserves the store invariant (no empty
key, no whitespace inside a key, no empty description), and any line whose
first token is `CLEAR` leaves the mapping empty. -/
theorem c6_invariant (st : Store) (input : String) (hwf : storeWF st) :
    storeWF (processLine st input).2 ∧
    ((tokenize input).head? = some "CLEAR" → (processLine st input).2 = []) := by
  constructor
  · rcases processTokens_snd_shape st (tokenize input) with h | h | h
    · rw [processLine, h]
      exact hwf
    · rw [processLine, h.2]
      intro p hp
      simp at hp
    · obtain ⟨w, rest, htoks, hw, hrest, hsnd⟩ := h
      rw [processLine, hsnd]
      refine storeSet_wf st hwf w (joinSep " " rest) hw ?_ hrest
      have hmem : w ∈ tokenize input := by rw [htoks]; simp
      exact (tokenize_wf input w hmem).2
  · intro hhead
    rcases htoks : tokenize input with _ | ⟨verb, args⟩
    · rw [htoks] at hhead
      simp at hhead
    · rw [htoks] at hhead
      simp at hhead
      subst hhead
      rw [processLine, htoks, processTokens_clear]

/-- C6 witness: the invariant holds after a `SET` on a well-formed
one-entry store, and a `CLEAR` line empties it. -/
theorem c6_witness :
    storeWF (processLine [("k", "v")] "SET a b c").2 ∧
    (storeWF (processLine [("k", "v")] "CLEAR").2 ∧
      ((tokenize "CLEAR").head? = some "CLEAR" →
        (processLine [("k", "v")] "CLEAR").2 = [])) := by
  constructor
  · exact (c6_invariant [("k", "v")] "SET a b c" (by decide)).1
  · exact c6_invariant [("k", "v")] "CLEAR" (by decide)

/-! ### C7 — only SET and CLEAR mutate the store -/

/-- C7: any input line whose first token is neither `SET` nor `CLEAR` —
including `GET` and `ALL` lines, unknown verbs and blank lines — leaves
the Dictionary Store exactly as it was. -/
theorem c7_read_only (st : Store) (input : String)
    (h₁ : (tokenize input).head? ≠ some "SET")
    (h₂ : (tokenize input).head? ≠ some "CLEAR") :
    (processLine st input).2 = st := by
  rcases processTokens_snd_shape st (tokenize input) with h | h | h
  · rw [processLine, h]
  · exact absurd h.1 h₂
  · obtain ⟨w, rest, htoks, _, _, _⟩ := h
    rw [htoks] at h₁
    simp at h₁
/-- C7 witness: a `GET`, an `ALL`, an unknown verb and a blank line all
leave a singleton store unchanged. -/
theorem c7_witness :
    (processLine [("a", "b")] "GET a").2 = [("a", "b")] ∧
    (processLine [("a", "b")] "ALL").2 = [("a", "b")] ∧
    (processLine [("a", "b")] "PING").2 = [("a", "b")] ∧
    (processLine [("a", "b")] "  ").2 = [("a", "b")] :=
  ⟨c7_read_only [("a", "b")] "GET a" (by decide) (by decide),
   c7_read_only [("a", "b")] "ALL" (by decide) (by decide),
   c7_read_only [("a", "b")] "PING" (by decide) (by decide),
   c7_read_only [("a", "b")] "  " (by decide) (by decide)⟩

/-! ### Repeated commands -/

theorem runLines_cons (st : Store) (l : String) (ls : List String) :
    runLines st (l :: ls) = runLines (processLine st l).2 ls := rfl

theorem processLine_clear_snd (st : Store) : (processLine st "CLEAR").2 = [] := by
  rw [processLine, (by decide : tokenize "CLEAR" = ["CLEAR"]), processTokens_clear]

theorem runLines_clear_empty (n : Nat) :
    runLines [] (List.replicate n "CLEAR") = [] := by
  induction n with
  | zero => rfl
  | succ k ih =>
    rw [List.replicate_succ, runLines_cons, processLine_clear_snd]
    exact ih

/-! ### C8 — idempotence of CLEAR and of repeated identical SET -/

/-- C8 (amended): repeating `CLEAR` any positive number of times leaves
the store empty; and for a word `w` (non-empty, no whitespace) and a
description `d` that is non-empty and equal to its own single-space
normalization, repeating the identical line `SET w d` any positive number
of times leaves the store with exactly one entry for `w`, mapped to `d`
(on a store with distinct keys, as JavaScript `Map` guarantees).  The
normalization hypothesis on `d` is forced: a description with a
whitespace run is stored in collapsed form (see `c8_counterexample`). -/
theorem c8_repeat (st : Store) (w d : String) (n m : Nat) (hn : 1 ≤ n) (hm : 1 ≤ m)
    (hnodup : (storeKeys st).Nodup)
    (hw : w ≠ "") (hws : ∀ c ∈ w.data, jsWhitespace c = false)
    (hd : d ≠ "") (hnorm : joinSep " " (tokenize d) = d) :
    runLines st (List.replicate n "CLEAR") = [] ∧
    (runLines st (List.replicate m ("SET " ++ w ++ " " ++ d))).filter
        (fun p => p.1 == w) = [(w, d)] := by
  constructor
  · rcases n with _ | k
    · omega
    · rw [List.replicate_succ, runLines_cons, processLine_clear_snd]
      exact runLines_clear_empty k
  · have hstep : ∀ s : Store,
        (processLine s ("SET " ++ w ++ " " ++ d)).2 = storeSet s w d := by
      intro s
      rw [processLine, tokenize_SET_line w d hw hws,
          processTokens_set s w (tokenize d) hw (by rw [hnorm]; exact hd)]
      rw [hnorm]
    have hrep : ∀ k : Nat,
        runLines (storeSet st w d) (List.replicate k ("SET " ++ w ++ " " ++ d))
          = storeSet st w d := by
      intro k
      induction k with
      | zero => rfl
      | succ j ih =>
        rw [List.replicate_succ, runLines_cons, hstep, storeSet_idem]
        exact ih
    rcases m with _ | k
    · omega
    · rw [List.replicate_succ, runLines_cons, hstep, hrep k]
      exact filter_storeSet st w d hnodup

/-- C8 counterexample: two executions of the identical line
`SET x a  b` leave the single `x` entry mapped to the collapsed `a b`,
not to the original description `a  b`, so the claim fails as stated. -/
theorem c8_counterexample :
    (runLines [] (List.replicate 2 "SET x a  b")).filter (fun p => p.1 == "x")
      ≠ [("x", "a  b")] := by decide

/-- C8 witness: two `CLEAR`s empty a one-entry store, and two identical
`SET x y z` lines leave exactly one `x` entry mapped to `y z`. -/
theorem c8_witness :
    runLines [("a", "b")] (List.replicate 2 "CLEAR") = [] ∧
    (runLines [("a", "b")] (List.replicate 2 ("SET " ++ "x" ++ " " ++ "y z"))).filter
        (fun p => p.1 == "x") = [("x", "y z")] :=
  c8_repeat [("a", "b")] "x" "y z" 2 2 (by decide) (by decide) (by decide)
    (by decide) (by decide) (by decide) (by decide)

/-! ### C9 — blank lines -/

/-- C9: an input chunk with zero tokens (empty or whitespace-only) is
answered with `ERROR A command was expected.`, the store is untouched, and
the session keeps processing: any subsequent command behaves exactly as if
the blank line had never been sent. -/
theorem c9_blank_line (st : Store) (input next : String) (h : tokenize input = []) :
    processLine st input = (["ERROR A command was expected."], st) ∧
    processLine (processLine st input).2 next = processLine st next := by
  have h₁ : processLine st input = (["ERROR A command was expected."], st) := by
    rw [processLine, h, processTokens_empty]
  exact ⟨h₁, by rw [h₁]⟩

/-- C9 witness: the whitespace-only chunk `" \r\n "` errors on a singleton
store and a following `ALL` is processed as usual. -/
theorem c9_witness :
    processLine [("a", "b")] " \r\n " = (["ERROR A command was expected."], [("a", "b")]) ∧
    processLine (processLine [("a", "b")] " \r\n ").2 "ALL"
      = processLine [("a", "b")] "ALL" :=
  c9_blank_line [("a", "b")] " \r\n " "ALL" (by decide)

/-! ### C10 — one data event, one command -/

/-- C10: each data event is interpreted as exactly one command, and the
carriage return and line feed of the protocol terminator are ordinary
token separators: a chunk made of two `\r\n`-terminated lines is processed
as the single concatenated token list of both lines — one dispatch, one
response, with the second line's tokens absorbed as extra arguments of the
first command.  Concretely, the chunk `SET a b\r\nGET a\r\n` produces only
the SET response and stores `b GET a` under `a`. -/
theorem c10_chunk_single_command (st : Store) (a b : String) :
    processLine st (a ++ "\r\n" ++ b ++ "\r\n")
        = processTokens st (tokenize a ++ tokenize b) ∧
    processLine [] "SET a b\r\nGET a\r\n"
        = (["ANSWER Word a has been set.", sepLine], [("a", "b GET a")]) := by
  constructor
  · rw [processLine, tokenize_chunks]
  · decide
